import Mathlib

/-!
Verification of the ogtools mini-cloud / boolean-creek core.

Shallow embedding of `mini_cloud.py`, `boolean_creek.py` and
`curvature.py` (Python 2 / numpy).  Node coordinates and field values are
modelled as rationals, numpy integer files as lists of bytes (natural
numbers `< 256`, little-endian, signed two's-complement interpretation on
read), and Python lists/arrays as Lean lists.
-/

namespace OGTools

/-! ### Byte-level integer records (numpy `tofile` / `fromfile`)

`np.array(v, dtype).tofile(f)` writes the value little-endian at the
width of `dtype`, wrapping modulo `2 ^ (8 * width)` (C cast); `np.fromfile`
reads little-endian and interprets the bytes as a signed integer. -/

def bytesOfNat : Nat → Nat → List Nat
  | 0, _ => []
  | w + 1, v => v % 256 :: bytesOfNat w (v / 256)

def natOfBytes : List Nat → Nat
  | [] => 0
  | b :: bs => b + 256 * natOfBytes bs

/-- Signed (two's complement) reading of a little-endian byte list. -/
def intOfBytes (bs : List Nat) : Int :=
  if natOfBytes bs < 2 ^ (8 * bs.length - 1) then (natOfBytes bs : Int)
  else (natOfBytes bs : Int) - 2 ^ (8 * bs.length)

/-- `np.fromfile(file, dtype of width w, count = k)`: reads up to `k`
items of `w` bytes each, fewer if the data runs short. -/
def readInts : Nat → Nat → List Nat → List Int × List Nat
  | _, 0, bs => ([], bs)
  | w, k + 1, bs =>
    if bs.length < w then ([], bs)
    else
      let p := readInts w k (bs.drop w)
      (intOfBytes (bs.take w) :: p.1, p.2)

/-- Adaptive integer width of `mini_cloud.py` (`int8`/`int16`/`int32`/`int64`
chosen from the number of mini-clouds). -/
def widthOf (n : Int) : Nat :=
  if n ≤ 127 then 1 else if n ≤ 32767 then 2 else if n ≤ 2147483647 then 4 else 8

/-- One per-node record of `export_mini_cloud`: the neighbour count then the
neighbour ids, all at width `w`. -/
def cloudRecord (w : Nat) (c : List Nat) : List Nat :=
  bytesOfNat w c.length ++ (c.map (bytesOfNat w)).flatten

/-- `export_mini_cloud` (mini_cloud.py lines 126-165): the number of
mini-clouds as a platform int (`dtype = int`, i.e. int64 on 64-bit Linux),
then for each mini-cloud its length and its node ids at the adaptive width. -/
def export_mini_cloud (cloud : List (List Nat)) : List Nat :=
  bytesOfNat 8 cloud.length ++
    (cloud.map (cloudRecord (widthOf (cloud.length : Int)))).flatten

/-- The per-cloud reading loop of `import_mini_cloud`: reads a count at
width `w` (IndexError, hence failure, if the file is exhausted) and then
that many ids.  A negative count makes `np.fromfile` read the whole rest
of the file. -/
def readCloudLoop (w : Nat) : Nat → List Nat → Option (List (List Int))
  | 0, _ => some []
  | i + 1, bs =>
    match readInts w 1 bs with
    | ([], _) => none
    | (cnt :: _, bs1) =>
      let k := if cnt < 0 then bs1.length / w else cnt.toNat
      let p := readInts w k bs1
      match readCloudLoop w i p.2 with
      | none => none
      | some cs => some (p.1 :: cs)

/-- `import_mini_cloud` (mini_cloud.py lines 170-215): reads the cloud
count as a platform int (int64), re-derives the adaptive width from it,
then reads that many per-node records. -/
def read_mini_cloud (bs : List Nat) : Option (List (List Int)) :=
  match readInts 8 1 bs with
  | ([], _) => none
  | (nc :: _, rest) => readCloudLoop (widthOf nc) nc.toNat rest

/-- A valid Neighborhood Index: non-empty, of machine-representable size,
per-node lists without duplicates whose entries are valid node ids. -/
def validCloud (cloud : List (List Nat)) : Prop :=
  0 < cloud.length ∧ cloud.length < 2 ^ 63 ∧
    ∀ c ∈ cloud, c.Nodup ∧ ∀ a ∈ c, a < cloud.length

instance (cloud : List (List Nat)) : Decidable (validCloud cloud) := by
  unfold validCloud; infer_instance

/-! ### Round-trip lemmas for the byte encoding -/

theorem length_bytesOfNat (w : Nat) : ∀ v : Nat, (bytesOfNat w v).length = w := by
  induction w with
  | zero => intro v; rfl
  | succ w ih => intro v; simp [bytesOfNat, ih]

theorem natOfBytes_bytesOfNat (w : Nat) :
    ∀ v : Nat, v < 256 ^ w → natOfBytes (bytesOfNat w v) = v := by
  induction w with
  | zero =>
    intro v hv
    interval_cases v
    rfl
  | succ w ih =>
    intro v hv
    have hdiv : v / 256 < 256 ^ w := by
      rw [Nat.div_lt_iff_lt_mul (by norm_num)]
      calc v < 256 ^ (w + 1) := hv
        _ = 256 ^ w * 256 := by ring
    simp only [bytesOfNat, natOfBytes, ih _ hdiv]
    exact Nat.mod_add_div v 256

theorem intOfBytes_bytesOfNat (w v : Nat) (h : v < 2 ^ (8 * w - 1)) :
    intOfBytes (bytesOfNat w v) = (v : Int) := by
  have hv : v < 256 ^ w := by
    have h1 : (2 : Nat) ^ (8 * w - 1) ≤ 2 ^ (8 * w) :=
      Nat.pow_le_pow_right (by norm_num) (Nat.sub_le _ _)
    have h2 : (256 : Nat) ^ w = 2 ^ (8 * w) := by
      rw [Nat.pow_mul]
    omega
  unfold intOfBytes
  rw [length_bytesOfNat, natOfBytes_bytesOfNat w v hv]
  simp [h]

theorem take_append_exact {α : Type} (l1 l2 : List α) (w : Nat) (h : l1.length = w) :
    (l1 ++ l2).take w = l1 := by
  subst h; exact List.take_left _ _

theorem drop_append_exact {α : Type} (l1 l2 : List α) (w : Nat) (h : l1.length = w) :
    (l1 ++ l2).drop w = l2 := by
  subst h; exact List.drop_left _ _

theorem readInts_single (w v : Nat) (rest : List Nat) (h : v < 2 ^ (8 * w - 1)) :
    readInts w 1 (bytesOfNat w v ++ rest) = ([(v : Int)], rest) := by
  have hlen : (bytesOfNat w v ++ rest).length = w + rest.length := by
    simp [length_bytesOfNat]
  simp only [readInts]
  rw [if_neg (by omega)]
  rw [take_append_exact _ _ _ (length_bytesOfNat w v),
    drop_append_exact _ _ _ (length_bytesOfNat w v)]
  simp [readInts, intOfBytes_bytesOfNat w v h]

theorem readInts_many (w : Nat) (l : List Nat) (rest : List Nat)
    (h : ∀ v ∈ l, v < 2 ^ (8 * w - 1)) :
    readInts w l.length ((l.map (bytesOfNat w)).flatten ++ rest) =
      (l.map (fun v => (v : Int)), rest) := by
  induction l generalizing rest with
  | nil => simp [readInts]
  | cons v l ih =>
    have hv := h v (List.mem_cons_self _ _)
    have hjoin : ((v :: l).map (bytesOfNat w)).flatten ++ rest =
        bytesOfNat w v ++ ((l.map (bytesOfNat w)).flatten ++ rest) := by
      simp [List.flatten]
    rw [hjoin]
    have hlen : (bytesOfNat w v ++ ((l.map (bytesOfNat w)).flatten ++ rest)).length =
        w + ((l.map (bytesOfNat w)).flatten ++ rest).length := by
      simp [length_bytesOfNat]
    show readInts w (l.length + 1) _ = _
    simp only [readInts]
    rw [if_neg (by omega)]
    rw [take_append_exact _ _ _ (length_bytesOfNat w v),
      drop_append_exact _ _ _ (length_bytesOfNat w v),
      ih _ (fun a ha => h a (List.mem_cons_of_mem _ ha))]
    simp [intOfBytes_bytesOfNat w v hv]

theorem readCloudLoop_records (w : Nat) (cs : List (List Nat)) (rest : List Nat)
    (h : ∀ c ∈ cs, c.length < 2 ^ (8 * w - 1) ∧ ∀ a ∈ c, a < 2 ^ (8 * w - 1)) :
    readCloudLoop w cs.length ((cs.map (cloudRecord w)).flatten ++ rest) =
      some (cs.map (fun c => c.map (fun a => (a : Int)))) := by
  induction cs generalizing rest with
  | nil => simp [readCloudLoop]
  | cons c cs ih =>
    obtain ⟨hclen, hcmem⟩ := h c (List.mem_cons_self _ _)
    have hjoin : ((c :: cs).map (cloudRecord w)).flatten ++ rest =
        bytesOfNat w c.length ++
          ((c.map (bytesOfNat w)).flatten ++ ((cs.map (cloudRecord w)).flatten ++ rest)) := by
      simp [List.flatten, cloudRecord]
    rw [hjoin]
    show readCloudLoop w (cs.length + 1) _ = _
    simp only [readCloudLoop]
    rw [readInts_single w c.length _ hclen]
    have hpos : ¬ ((c.length : Int) < 0) := by omega
    simp only [hpos, if_false, Int.toNat_ofNat]
    have hids := readInts_many w c ((cs.map (cloudRecord w)).flatten ++ rest) hcmem
    rw [hids, ih _ (fun a ha => h a (List.mem_cons_of_mem _ ha))]
    simp

theorem nodup_bounded_length_le (c : List Nat) (n : Nat)
    (hnd : c.Nodup) (hlt : ∀ a ∈ c, a < n) : c.length ≤ n := by
  have h1 : c.toFinset.card = c.length := List.toFinset_card_of_nodup hnd
  have h2 : c.toFinset ⊆ Finset.range n := by
    intro a ha
    rw [List.mem_toFinset] at ha
    exact Finset.mem_range.mpr (hlt a ha)
  have := Finset.card_le_card h2
  rw [h1, Finset.card_range] at this
  exact this

theorem widthOf_bound (n : Nat) (h : n < 2 ^ 63) :
    n < 2 ^ (8 * widthOf (n : Int) - 1) := by
  unfold widthOf
  split_ifs with h1 h2 h3
  · have : n ≤ 127 := by exact_mod_cast h1
    norm_num; omega
  · have : n ≤ 32767 := by exact_mod_cast h2
    norm_num; omega
  · have : n ≤ 2147483647 := by exact_mod_cast h3
    norm_num; omega
  · norm_num; omega

theorem mini_cloud_roundtrip_aux (cloud : List (List Nat)) (h : validCloud cloud) :
    read_mini_cloud (export_mini_cloud cloud) =
      some (cloud.map (fun c => c.map (fun a => (a : Int)))) := by
  obtain ⟨-, hsize, hmem⟩ := h
  have hn : cloud.length < 2 ^ (8 * 8 - 1) := by norm_num; omega
  unfold export_mini_cloud read_mini_cloud
  rw [readInts_single 8 cloud.length _ hn]
  have hbound := widthOf_bound cloud.length hsize
  have hrec : ∀ c ∈ cloud, c.length < 2 ^ (8 * widthOf (cloud.length : Int) - 1) ∧
      ∀ a ∈ c, a < 2 ^ (8 * widthOf (cloud.length : Int) - 1) := by
    intro c hc
    obtain ⟨hnd, hlt⟩ := hmem c hc
    constructor
    · exact lt_of_le_of_lt (nodup_bounded_length_le c cloud.length hnd hlt) hbound
    · intro a ha
      exact lt_trans (hlt a ha) hbound
  have := readCloudLoop_records (widthOf (cloud.length : Int)) cloud []
    (by simpa using hrec)
  simp only [List.append_nil] at this
  simpa using this

/-- C1: for every valid Neighborhood Index (a non-empty list of per-node
arrays without duplicates whose entries are valid node ids), reading back
the file written by `export_mini_cloud` yields a neighborhood index with
the same number of per-node lists whose per-node neighborhoods are equal —
as sets of node ids, and in fact as lists — to those of the original
index.  The statement is universal in the index size, so it covers in
particular indices with 1, 126, 128 and 32768 neighborhoods, straddling
the adaptive integer-width thresholds. -/
theorem mini_cloud_roundtrip (cloud : List (List Nat)) (h : validCloud cloud) :
    ∃ cloud2, read_mini_cloud (export_mini_cloud cloud) = some cloud2 ∧
      cloud2.length = cloud.length ∧
      ∀ i, i < cloud.length →
        (cloud2.getD i []).toFinset =
          ((cloud.getD i []).map (fun a => (a : Int))).toFinset := by
  refine ⟨cloud.map (fun c => c.map (fun a => (a : Int))),
    mini_cloud_roundtrip_aux cloud h, by simp, ?_⟩
  intro i hi
  have : (cloud.map (fun c => c.map (fun a => (a : Int)))).getD i [] =
      (cloud.getD i []).map (fun a => (a : Int)) := by
    rw [List.getD_eq_getElem?_getD, List.getD_eq_getElem?_getD,
      List.getElem?_map, List.getElem?_eq_getElem hi]
    rfl
  rw [this]

/-- Witness for C1 at the concrete index `[[0]]`. -/
theorem mini_cloud_roundtrip_witness :
    ∃ cloud2, read_mini_cloud (export_mini_cloud [[0]]) = some cloud2 ∧
      cloud2.length = [[0]].length ∧
      ∀ i, i < [[0]].length →
        (cloud2.getD i []).toFinset =
          (([[(0 : Nat)]].getD i []).map (fun a => (a : Int))).toFinset :=
  mini_cloud_roundtrip [[0]] (by decide)

/-- The store layout the claim C9 describes, with a fixed `int32` header
(the claim's words); compared below against the source's actual layout. -/
def export_mini_cloud_int32_header (cloud : List (List Nat)) : List Nat :=
  bytesOfNat 4 cloud.length ++
    (cloud.map (cloudRecord (widthOf (cloud.length : Int)))).flatten

/-- C9 counterexample: the file written for the one-node index `[[0]]`
does not start with an `int32` header — `export_mini_cloud` writes the
count at `dtype = int`, the 8-byte platform int, so the file has 10
bytes where the claimed layout would have 6. -/
theorem mini_cloud_header_not_int32 :
    export_mini_cloud [[0]] ≠ export_mini_cloud_int32_header [[0]] ∧
      (export_mini_cloud [[0]]).length = 10 ∧
      (export_mini_cloud_int32_header [[0]]).length = 6 := by
  decide

theorem length_cloudRecord (w : Nat) (c : List Nat) :
    (cloudRecord w c).length = w * (1 + c.length) := by
  unfold cloudRecord
  rw [List.length_append, length_bytesOfNat, List.length_flatten, List.map_map]
  have hmap : c.map (List.length ∘ bytesOfNat w) = c.map (fun _ => w) := by
    apply List.map_congr_left
    intro a _
    exact length_bytesOfNat w a
  rw [hmap, List.map_const', List.sum_replicate, smul_eq_mul]
  ring

/-- C9 (amended): `export_mini_cloud` writes the total neighborhood count
as an int64 (platform `int`) header — not int32 — then for each node in id
order its neighbor count and neighbor ids at a single width chosen once
from the total count (int8 if ≤ 127, int16 if ≤ 32767, int32 if ≤ 2^31−1,
else int64); reading re-reads each per-node count at that same
adaptively-determined width and reconstructs the same number of per-node
lists. -/
theorem mini_cloud_store_format (cloud : List (List Nat)) (h : validCloud cloud) :
    (export_mini_cloud cloud).take 8 = bytesOfNat 8 cloud.length ∧
    intOfBytes ((export_mini_cloud cloud).take 8) = (cloud.length : Int) ∧
    (export_mini_cloud cloud).length =
      8 + (cloud.map
        (fun c => widthOf (cloud.length : Int) * (1 + c.length))).sum ∧
    ∃ cloud2, read_mini_cloud (export_mini_cloud cloud) = some cloud2 ∧
      cloud2.length = cloud.length := by
  have hsize := h.2.1
  have htake : (export_mini_cloud cloud).take 8 = bytesOfNat 8 cloud.length := by
    unfold export_mini_cloud
    exact take_append_exact _ _ _ (length_bytesOfNat 8 cloud.length)
  refine ⟨htake, ?_, ?_, ?_⟩
  · rw [htake]
    exact intOfBytes_bytesOfNat 8 cloud.length (by norm_num; omega)
  · unfold export_mini_cloud
    rw [List.length_append, length_bytesOfNat, List.length_flatten, List.map_map]
    congr 1
    apply congrArg
    apply List.map_congr_left
    intro c _
    simpa using length_cloudRecord (widthOf (cloud.length : Int)) c
  · exact ⟨_, mini_cloud_roundtrip_aux cloud h, by simp⟩

/-- Witness for C9 (amended) at the concrete index `[[0], [1, 0]]`. -/
theorem mini_cloud_store_format_witness :
    (export_mini_cloud [[0], [1, 0]]).take 8 = bytesOfNat 8 2 ∧
    intOfBytes ((export_mini_cloud [[0], [1, 0]]).take 8) = (2 : Int) ∧
    (export_mini_cloud [[0], [1, 0]]).length =
      8 + ([[(0 : Nat)], [1, 0]].map (fun c => widthOf (2 : Int) * (1 + c.length))).sum ∧
    ∃ cloud2, read_mini_cloud (export_mini_cloud [[0], [1, 0]]) = some cloud2 ∧
      cloud2.length = 2 :=
  mini_cloud_store_format [[0], [1, 0]] (by decide)

/-! ### Topological Neighborhood Index (`compute_mini_cloud`)

mini_cloud.py lines 8-60: for each triangle, for each ordered pair of its
vertices `(j, k)`, append `j` to the mini-cloud of `k` unless already
present.  Coordinates are unused by the source, so the model takes only
the node count. -/

def triList (t : Nat × Nat × Nat) : List Nat := [t.1, t.2.1, t.2.2]

/-- `if j not in cloud[k]: cloud[k].append(j)` -/
def addNode (j : Nat) (cl : List (List Nat)) (k : Nat) : List (List Nat) :=
  if j ∈ cl.getD k [] then cl else cl.set k (cl.getD k [] ++ [j])

def addTri (cl : List (List Nat)) (t : Nat × Nat × Nat) : List (List Nat) :=
  (triList t).foldl (fun acc j => (triList t).foldl (addNode j) acc) cl

def compute_mini_cloud (nnode : Nat) (tri : List (Nat × Nat × Nat)) :
    List (List Nat) :=
  tri.foldl addTri (List.replicate nnode [])

theorem length_addNode (j : Nat) (cl : List (List Nat)) (k : Nat) :
    (addNode j cl k).length = cl.length := by
  unfold addNode
  split <;> simp

theorem getD_set_self {α : Type} (l : List α) (k : Nat) (a d : α)
    (h : k < l.length) : (l.set k a).getD k d = a := by
  rw [List.getD_eq_getElem?_getD, List.getElem?_set_self (by simpa using h)]
  rfl

theorem getD_set_ne {α : Type} (l : List α) (k k' : Nat) (a d : α)
    (h : k ≠ k') : (l.set k a).getD k' d = l.getD k' d := by
  rw [List.getD_eq_getElem?_getD, List.getElem?_set_ne h,
    ← List.getD_eq_getElem?_getD]

theorem mem_addNode (j : Nat) (cl : List (List Nat)) (k k' m : Nat)
    (hk : k < cl.length) :
    m ∈ (addNode j cl k).getD k' [] ↔
      m ∈ cl.getD k' [] ∨ (m = j ∧ k' = k) := by
  unfold addNode
  by_cases hmem : j ∈ cl.getD k []
  · rw [if_pos hmem]
    constructor
    · exact Or.inl
    · rintro (h | ⟨rfl, rfl⟩)
      · exact h
      · exact hmem
  · rw [if_neg hmem]
    by_cases hk' : k' = k
    · subst hk'
      rw [getD_set_self _ _ _ _ hk]
      simp only [List.mem_append, List.mem_singleton]
      tauto
    · rw [getD_set_ne _ _ _ _ _ (fun hkk => hk' hkk.symm)]
      tauto

theorem length_foldl_addNode (j : Nat) (ks : List Nat) (cl : List (List Nat)) :
    (ks.foldl (addNode j) cl).length = cl.length := by
  induction ks generalizing cl with
  | nil => rfl
  | cons k ks ih => rw [List.foldl_cons, ih, length_addNode]

theorem mem_foldl_addNode (j : Nat) (ks : List Nat) (cl : List (List Nat))
    (k' m : Nat) (hks : ∀ k ∈ ks, k < cl.length) :
    m ∈ (ks.foldl (addNode j) cl).getD k' [] ↔
      m ∈ cl.getD k' [] ∨ (m = j ∧ k' ∈ ks) := by
  induction ks generalizing cl with
  | nil => simp
  | cons k0 ks ih =>
    rw [List.foldl_cons]
    rw [ih (addNode j cl k0)
      (fun k hk => by rw [length_addNode]; exact hks k (List.mem_cons_of_mem _ hk))]
    rw [mem_addNode j cl k0 k' m (hks k0 (List.mem_cons_self _ _))]
    simp only [List.mem_cons]
    tauto

theorem length_foldl2_addNode (ks js : List Nat) (cl : List (List Nat)) :
    (js.foldl (fun acc j => ks.foldl (addNode j) acc) cl).length = cl.length := by
  induction js generalizing cl with
  | nil => rfl
  | cons j js ih => rw [List.foldl_cons, ih, length_foldl_addNode]

theorem mem_foldl2_addNode (ks js : List Nat) (cl : List (List Nat)) (k m : Nat)
    (hks : ∀ v ∈ ks, v < cl.length) :
    m ∈ (js.foldl (fun acc j => ks.foldl (addNode j) acc) cl).getD k [] ↔
      m ∈ cl.getD k [] ∨ (m ∈ js ∧ k ∈ ks) := by
  induction js generalizing cl with
  | nil => simp
  | cons j js ih =>
    rw [List.foldl_cons]
    rw [ih (ks.foldl (addNode j) cl)
      (fun v hv => by rw [length_foldl_addNode]; exact hks v hv)]
    rw [mem_foldl_addNode j ks cl k m hks]
    simp only [List.mem_cons]
    tauto

theorem length_addTri (cl : List (List Nat)) (t : Nat × Nat × Nat) :
    (addTri cl t).length = cl.length :=
  length_foldl2_addNode _ _ _

theorem mem_addTri (cl : List (List Nat)) (t : Nat × Nat × Nat) (k m : Nat)
    (ht : ∀ v ∈ triList t, v < cl.length) :
    m ∈ (addTri cl t).getD k [] ↔
      m ∈ cl.getD k [] ∨ (m ∈ triList t ∧ k ∈ triList t) :=
  mem_foldl2_addNode _ _ _ _ _ ht

theorem length_foldl_addTri (tri : List (Nat × Nat × Nat)) (cl : List (List Nat)) :
    (tri.foldl addTri cl).length = cl.length := by
  induction tri generalizing cl with
  | nil => rfl
  | cons t tri ih => rw [List.foldl_cons, ih, length_addTri]

theorem mem_foldl_addTri (tri : List (Nat × Nat × Nat)) (cl : List (List Nat))
    (k m : Nat) (h : ∀ t ∈ tri, ∀ v ∈ triList t, v < cl.length) :
    m ∈ (tri.foldl addTri cl).getD k [] ↔
      m ∈ cl.getD k [] ∨ ∃ t ∈ tri, m ∈ triList t ∧ k ∈ triList t := by
  induction tri generalizing cl with
  | nil => simp
  | cons t tri ih =>
    rw [List.foldl_cons]
    rw [ih (addTri cl t)
      (fun t2 ht2 v hv => by
        rw [length_addTri]; exact h t2 (List.mem_cons_of_mem _ ht2) v hv)]
    rw [mem_addTri cl t k m (h t (List.mem_cons_self _ _))]
    simp only [List.mem_cons]
    constructor
    · rintro ((hc | ⟨hm, hk⟩) | ⟨t2, ht2, hm, hk⟩)
      · exact Or.inl hc
      · exact Or.inr ⟨t, Or.inl rfl, hm, hk⟩
      · exact Or.inr ⟨t2, Or.inr ht2, hm, hk⟩
    · rintro (hc | ⟨t2, (rfl | ht2), hm, hk⟩)
      · exact Or.inl (Or.inl hc)
      · exact Or.inl (Or.inr ⟨hm, hk⟩)
      · exact Or.inr ⟨t2, ht2, hm, hk⟩

theorem getD_replicate_nil (n k : Nat) :
    (List.replicate n ([] : List Nat)).getD k [] = [] := by
  rw [List.getD_eq_getElem?_getD]
  rcases lt_or_ge k n with h | h
  · rw [List.getElem?_eq_getElem (by simpa using h)]
    simp
  · rw [List.getElem?_eq_none (by simpa using h)]
    rfl

theorem mem_compute_mini_cloud (nnode : Nat) (tri : List (Nat × Nat × Nat))
    (k m : Nat) (h : ∀ t ∈ tri, ∀ v ∈ triList t, v < nnode) :
    m ∈ (compute_mini_cloud nnode tri).getD k [] ↔
      ∃ t ∈ tri, m ∈ triList t ∧ k ∈ triList t := by
  unfold compute_mini_cloud
  rw [mem_foldl_addTri tri _ k m (by simpa using h)]
  rw [getD_replicate_nil]
  simp

theorem nodup_getD_addNode (j : Nat) (cl : List (List Nat)) (k : Nat)
    (h : ∀ i, (cl.getD i []).Nodup) : ∀ i, ((addNode j cl k).getD i []).Nodup := by
  intro i
  unfold addNode
  by_cases hmem : j ∈ cl.getD k []
  · rw [if_pos hmem]; exact h i
  · rw [if_neg hmem]
    by_cases hk : k < cl.length
    · by_cases hik : i = k
      · subst hik
        rw [getD_set_self _ _ _ _ hk]
        simp only [List.nodup_append, List.nodup_singleton, List.disjoint_singleton]
        exact ⟨h i, trivial, hmem⟩
      · rw [getD_set_ne _ _ _ _ _ (fun hkk => hik hkk.symm)]
        exact h i
    · rw [List.set_eq_of_length_le (by omega)]
      exact h i

theorem nodup_getD_foldl_addNode (j : Nat) (ks : List Nat) (cl : List (List Nat))
    (h : ∀ i, (cl.getD i []).Nodup) :
    ∀ i, ((ks.foldl (addNode j) cl).getD i []).Nodup := by
  induction ks generalizing cl with
  | nil => exact h
  | cons k ks ih =>
    rw [List.foldl_cons]
    exact ih _ (nodup_getD_addNode j cl k h)

theorem nodup_getD_foldl2_addNode (ks js : List Nat) (cl : List (List Nat))
    (h : ∀ i, (cl.getD i []).Nodup) :
    ∀ i, ((js.foldl (fun acc j => ks.foldl (addNode j) acc) cl).getD i []).Nodup := by
  induction js generalizing cl with
  | nil => exact h
  | cons j js ih =>
    rw [List.foldl_cons]
    exact ih _ (nodup_getD_foldl_addNode j ks cl h)

theorem nodup_getD_addTri (cl : List (List Nat)) (t : Nat × Nat × Nat)
    (h : ∀ i, (cl.getD i []).Nodup) : ∀ i, ((addTri cl t).getD i []).Nodup :=
  nodup_getD_foldl2_addNode (triList t) (triList t) cl h

theorem nodup_getD_foldl_addTri (tri : List (Nat × Nat × Nat))
    (cl : List (List Nat)) (h : ∀ i, (cl.getD i []).Nodup) :
    ∀ i, ((tri.foldl addTri cl).getD i []).Nodup := by
  induction tri generalizing cl with
  | nil => exact h
  | cons t tri ih =>
    rw [List.foldl_cons]
    exact ih _ (nodup_getD_addTri cl t h)

theorem nodup_compute_mini_cloud (nnode : Nat) (tri : List (Nat × Nat × Nat)) :
    ∀ i, ((compute_mini_cloud nnode tri).getD i []).Nodup :=
  nodup_getD_foldl_addTri tri _
    (fun i => by rw [getD_replicate_nil]; exact List.nodup_nil)

/-- C3 counterexample: in the mesh with 4 nodes and the single triangle
`(0, 1, 2)`, node 3 is referenced by no triangle and its neighborhood does
not contain node 3 itself — it is empty — so the claim "this neighborhood
contains k itself" fails for every mesh with an isolated node. -/
theorem topological_isolated_not_self_mem :
    ¬ (3 ∈ (compute_mini_cloud 4 [(0, 1, 2)]).getD 3 []) := by decide

/-- C3 (amended): for every mesh whose triangles reference only valid node
ids, the topological builder returns, for each node `k`, exactly the set of
node ids that appear in some triangle also containing `k`; for each node
`k` that appears in at least one triangle, the neighborhood contains `k`
itself; every neighborhood is a subset of `{0, …, nnode − 1}`.  (A node
referenced by no triangle gets the empty neighborhood, which does not
contain the node itself.) -/
theorem topological_cloud_characterization (nnode : Nat)
    (tri : List (Nat × Nat × Nat))
    (h : ∀ t ∈ tri, ∀ v ∈ triList t, v < nnode) :
    (∀ k m, m ∈ (compute_mini_cloud nnode tri).getD k [] ↔
        ∃ t ∈ tri, m ∈ triList t ∧ k ∈ triList t) ∧
    (∀ k, (∃ t ∈ tri, k ∈ triList t) →
        k ∈ (compute_mini_cloud nnode tri).getD k []) ∧
    (∀ k m, m ∈ (compute_mini_cloud nnode tri).getD k [] → m < nnode) := by
  refine ⟨fun k m => mem_compute_mini_cloud nnode tri k m h, ?_, ?_⟩
  · rintro k ⟨t, ht, hk⟩
    exact (mem_compute_mini_cloud nnode tri k k h).mpr ⟨t, ht, hk, hk⟩
  · intro k m hm
    obtain ⟨t, ht, hmt, -⟩ := (mem_compute_mini_cloud nnode tri k m h).mp hm
    exact h t ht m hmt

/-- Witness for C3 (amended) on the concrete mesh with 3 nodes and one
triangle `(0, 1, 2)`. -/
theorem topological_cloud_characterization_witness :
    (∀ k m, m ∈ (compute_mini_cloud 3 [(0, 1, 2)]).getD k [] ↔
        ∃ t ∈ [((0 : Nat), (1 : Nat), (2 : Nat))], m ∈ triList t ∧ k ∈ triList t) ∧
    (∀ k, (∃ t ∈ [((0 : Nat), (1 : Nat), (2 : Nat))], k ∈ triList t) →
        k ∈ (compute_mini_cloud 3 [(0, 1, 2)]).getD k []) ∧
    (∀ k m, m ∈ (compute_mini_cloud 3 [(0, 1, 2)]).getD k [] → m < 3) :=
  topological_cloud_characterization 3 [(0, 1, 2)] (by decide)

/-- C7 counterexample: on the mesh with 5 nodes and the single triangle
`(0, 1, 2)`, `compute_mini_cloud` returns normally — the full output is a
plain list whose entries for the isolated nodes 3 and 4 are the empty
neighborhood.  No `ConfigurationError` (indeed no error of any kind)
exists on this code path. -/
theorem isolated_node_empty_cloud_returned :
    compute_mini_cloud 5 [(0, 1, 2)] =
      [[0, 1, 2], [0, 1, 2], [0, 1, 2], [], []] := by decide

/-! ### Metric Neighborhood Index (`compute_mini_cloud_radius`)

mini_cloud.py lines 65-121.  Coordinates are rationals (the float
computations of the source involve only sums, differences, products and
comparisons, which are exact here).  `np.random.randint(0, len(j), nmax)`
is modelled by an explicit per-node list of drawn positions `draws i`
(each position `< len j`, drawn with replacement). -/

/-- The square bounding-box prefilter
`(x >= x0-r) * (x <= x0+r) * (y >= y0-r) * (y <= y0+r)` at node pair
`(i, j)`. -/
def boxTest (x y : List ℚ) (r : ℚ) (i j : Nat) : Bool :=
  decide (x.getD i 0 - r ≤ x.getD j 0) && decide (x.getD j 0 ≤ x.getD i 0 + r) &&
    decide (y.getD i 0 - r ≤ y.getD j 0) && decide (y.getD j 0 ≤ y.getD i 0 + r)

/-- Squared Euclidean distance between nodes `i` and `j`. -/
def dist2 (x y : List ℚ) (i j : Nat) : ℚ :=
  (x.getD j 0 - x.getD i 0) * (x.getD j 0 - x.getD i 0) +
    (y.getD j 0 - y.getD i 0) * (y.getD j 0 - y.getD i 0)

/-- The array `d2`: zero-initialised, filled with the squared distance only
at positions passing the box prefilter. -/
def d2Arr (x y : List ℚ) (r : ℚ) (i j : Nat) : ℚ :=
  if boxTest x y r i j then dist2 x y i j else 0

/-- `j = np.argwhere(tmp_j).reshape(-1)` after `tmp_j *= (d2 <= r * r)`:
the ascending list of indices passing both the box prefilter and the
circle test. -/
def circleIdx (x y : List ℚ) (r : ℚ) (i : Nat) : List Nat :=
  (List.range x.length).filter
    (fun j => boxTest x y r i j && decide (d2Arr x y r i j ≤ r * r))

/-- The cap step `if len(j) > nmax and nmax is not None`.  In Python 2 the
comparison `len(j) > None` evaluates (to True) without error, and the
conjunct `nmax is not None` then makes the whole guard False, so
`nmax = None` performs no subsampling.  With a cap `m`, the subsample
`j[np.random.randint(0, len(j), m)]` is modelled by indexing `j` at the
drawn positions. -/
def capSelect (nmax : Option Nat) (draws : List Nat) (j : List Nat) : List Nat :=
  match nmax with
  | none => j
  | some m => if m < j.length then draws.map (fun t => j.getD t 0) else j

def compute_mini_cloud_radius (x y : List ℚ) (r : ℚ) (nmax : Option Nat)
    (draws : Nat → List Nat) : List (List Nat) :=
  (List.range x.length).map (fun i => capSelect nmax (draws i) (circleIdx x y r i))

theorem compute_mini_cloud_radius_getD (x y : List ℚ) (r : ℚ)
    (nmax : Option Nat) (draws : Nat → List Nat) (i : Nat) (hi : i < x.length) :
    (compute_mini_cloud_radius x y r nmax draws).getD i [] =
      capSelect nmax (draws i) (circleIdx x y r i) := by
  unfold compute_mini_cloud_radius
  rw [List.getD_eq_getElem?_getD, List.getElem?_map,
    List.getElem?_eq_getElem (by simpa using hi)]
  simp

theorem circleIdx_eq_circle_filter (x y : List ℚ) (r : ℚ) (hr : 0 < r) (i : Nat) :
    circleIdx x y r i =
      (List.range x.length).filter (fun j => decide (dist2 x y i j ≤ r * r)) := by
  unfold circleIdx
  apply List.filter_congr
  intro j _
  by_cases hcirc : dist2 x y i j ≤ r * r
  · have hbox : boxTest x y r i j = true := by
      have hx2 : (x.getD j 0 - x.getD i 0) * (x.getD j 0 - x.getD i 0) ≤ r * r := by
        have hy2 : 0 ≤ (y.getD j 0 - y.getD i 0) * (y.getD j 0 - y.getD i 0) :=
          mul_self_nonneg _
        unfold dist2 at hcirc
        linarith
      have hy2 : (y.getD j 0 - y.getD i 0) * (y.getD j 0 - y.getD i 0) ≤ r * r := by
        have hx0 : 0 ≤ (x.getD j 0 - x.getD i 0) * (x.getD j 0 - x.getD i 0) :=
          mul_self_nonneg _
        unfold dist2 at hcirc
        linarith
      have h1 : x.getD i 0 - r ≤ x.getD j 0 := by nlinarith
      have h2 : x.getD j 0 ≤ x.getD i 0 + r := by nlinarith
      have h3 : y.getD i 0 - r ≤ y.getD j 0 := by nlinarith
      have h4 : y.getD j 0 ≤ y.getD i 0 + r := by nlinarith
      unfold boxTest
      simp only [Bool.and_eq_true, decide_eq_true_eq]
      exact ⟨⟨⟨h1, h2⟩, h3⟩, h4⟩
    unfold d2Arr
    simp [hbox, hcirc]
  · unfold d2Arr
    by_cases hbox : boxTest x y r i j
    · simp [hbox, hcirc]
    · simp [hbox, hcirc]

/-- C2: for every node `i` and every radius `r > 0`,
`compute_mini_cloud_radius` without a cap (`nmax = None`) returns for `i`
exactly the (ascending) list of node ids `j` whose Euclidean distance to
`i` is at most `r` — stated with squared quantities, `dist2 ≤ r·r`, which
for `r > 0` is equivalent to distance ≤ r — and this list always contains
`i` itself; the bounding-box prefilter does not change the result. -/
theorem metric_cloud_exact_radius (x y : List ℚ) (r : ℚ) (hr : 0 < r)
    (draws : Nat → List Nat) (i : Nat) (hi : i < x.length) :
    (compute_mini_cloud_radius x y r none draws).getD i [] =
      (List.range x.length).filter (fun j => decide (dist2 x y i j ≤ r * r)) ∧
    i ∈ (compute_mini_cloud_radius x y r none draws).getD i [] := by
  have heq : (compute_mini_cloud_radius x y r none draws).getD i [] =
      (List.range x.length).filter (fun j => decide (dist2 x y i j ≤ r * r)) := by
    rw [compute_mini_cloud_radius_getD x y r none draws i hi]
    show circleIdx x y r i = _
    exact circleIdx_eq_circle_filter x y r hr i
  refine ⟨heq, ?_⟩
  rw [heq]
  apply List.mem_filter.mpr
  constructor
  · exact List.mem_range.mpr hi
  · have : dist2 x y i i = 0 := by unfold dist2; ring
    rw [this]
    simpa using mul_self_nonneg r

/-- Witness for C2 at `x = [0, 1]`, `y = [0, 0]`, `r = 1`, node 0. -/
theorem metric_cloud_exact_radius_witness :
    (compute_mini_cloud_radius [0, 1] [0, 0] 1 none (fun _ => [])).getD 0 [] =
      (List.range 2).filter (fun j => decide (dist2 [0, 1] [0, 0] 0 j ≤ 1 * 1)) ∧
    0 ∈ (compute_mini_cloud_radius [0, 1] [0, 0] 1 none (fun _ => [])).getD 0 [] :=
  metric_cloud_exact_radius [0, 1] [0, 0] 1 (by norm_num) (fun _ => []) 0
    (by norm_num)

/-- C7 counterexample for the metric builder combined with the topological
one is split: this theorem shows the metric builder, given a negative
radius (the only way a node can have zero in-radius neighbors, since
distance-to-self is 0 ≤ r for r ≥ 0), returns normally with every
neighborhood empty — no `ConfigurationError` is raised anywhere in
`mini_cloud.py`. -/
theorem metric_negative_radius_empty :
    compute_mini_cloud_radius [0, 1] [0, 0] (-1) none (fun _ => []) = [[], []] := by
  norm_num [compute_mini_cloud_radius, capSelect, circleIdx, boxTest, d2Arr,
    dist2, List.filter, List.range_succ]

/-- C7 (amended): neighborhood construction does not fail when a node
receives an empty neighborhood — there is no `ConfigurationError` in the
code.  The topological builder silently returns the empty list for a node
referenced by no triangle, and the metric builder silently returns the
empty list for every node when the radius is negative (the only situation
in which an in-radius neighborhood is empty, distance-to-self being 0). -/
theorem empty_neighborhood_silent :
    (∀ (nnode : Nat) (tri : List (Nat × Nat × Nat)) (k : Nat),
      (∀ t ∈ tri, ∀ v ∈ triList t, v < nnode) →
      (∀ t ∈ tri, k ∉ triList t) →
      (compute_mini_cloud nnode tri).getD k [] = []) ∧
    (∀ (x y : List ℚ) (r : ℚ) (draws : Nat → List Nat) (i : Nat),
      r < 0 → (compute_mini_cloud_radius x y r none draws).getD i [] = []) := by
  constructor
  · intro nnode tri k hvalid hiso
    rw [List.eq_nil_iff_forall_not_mem]
    intro m hm
    obtain ⟨t, ht, -, hk⟩ := (mem_compute_mini_cloud nnode tri k m hvalid).mp hm
    exact hiso t ht hk
  · intro x y r draws i hr
    rcases lt_or_ge i x.length with hi | hi
    · rw [compute_mini_cloud_radius_getD x y r none draws i hi]
      show circleIdx x y r i = []
      unfold circleIdx
      rw [List.filter_eq_nil_iff]
      intro j _
      unfold boxTest
      intro hcontra
      simp only [Bool.and_eq_true, decide_eq_true_eq] at hcontra
      obtain ⟨⟨⟨h1, h2⟩, -⟩, -⟩ := hcontra
      linarith
    · unfold compute_mini_cloud_radius
      rw [List.getD_eq_getElem?_getD, List.getElem?_eq_none (by simpa using hi)]
      rfl

/-- Witness for C7 (amended): both conjuncts instantiated on concrete
inputs (an isolated node in a one-triangle mesh; a negative radius). -/
theorem empty_neighborhood_silent_witness :
    (compute_mini_cloud 4 [(0, 1, 3)]).getD 2 [] = [] ∧
    (compute_mini_cloud_radius [0, 3] [0, 0] (-2) none (fun _ => [])).getD 1 [] = [] :=
  ⟨empty_neighborhood_silent.1 4 [(0, 1, 3)] 2 (by decide) (by decide),
    empty_neighborhood_silent.2 [0, 3] [0, 0] (-2) (fun _ => []) 1 (by norm_num)⟩

/-- C8 counterexample: `np.random.randint(0, len(j), nmax)` samples WITH
replacement, so a capped metric neighborhood can contain duplicate ids.
With nodes at x = 0, 1, 2 (y = 0), radius 5 and cap `nmax = 2`, node 0's
in-radius list is `[0, 1, 2]`; the admissible random draw `[0, 0]`
produces the subsample `[0, 0]`, which has a duplicate. -/
theorem metric_cap_duplicates :
    ¬ ((compute_mini_cloud_radius [0, 1, 2] [0, 0, 0] 5 (some 2)
        (fun _ => [0, 0])).getD 0 []).Nodup := by
  have hidx : circleIdx [0, 1, 2] [0, 0, 0] 5 0 = [0, 1, 2] := by
    norm_num [circleIdx, boxTest, d2Arr, dist2, List.filter, List.range_succ]
  rw [compute_mini_cloud_radius_getD _ _ _ _ _ 0 (by norm_num), hidx]
  decide

/-- C8 (amended): neighborhoods from the topological builder contain no
duplicate ids, and so do metric neighborhoods when no cap is given; but
when the cap triggers, the subsample `j[np.random.randint(0, len(j), nmax)]`
is drawn with replacement and may contain duplicates — what is guaranteed
is only that it has exactly `nmax` entries (the hard cap). -/
theorem cloud_nodup_and_cap (nnode : Nat) (tri : List (Nat × Nat × Nat))
    (x y : List ℚ) (r : ℚ) (draws : Nat → List Nat) (m : Nat)
    (hd : ∀ i, (draws i).length = m) :
    (∀ k, ((compute_mini_cloud nnode tri).getD k []).Nodup) ∧
    (∀ i, ((compute_mini_cloud_radius x y r none draws).getD i []).Nodup) ∧
    (∀ i, i < x.length → m < (circleIdx x y r i).length →
      ((compute_mini_cloud_radius x y r (some m) draws).getD i []).length = m) := by
  refine ⟨nodup_compute_mini_cloud nnode tri, ?_, ?_⟩
  · intro i
    rcases lt_or_ge i x.length with hi | hi
    · rw [compute_mini_cloud_radius_getD x y r none draws i hi]
      show (circleIdx x y r i).Nodup
      exact (List.nodup_range _).filter _
    · unfold compute_mini_cloud_radius
      rw [List.getD_eq_getElem?_getD, List.getElem?_eq_none (by simpa using hi)]
      exact List.nodup_nil
  · intro i hi hcap
    rw [compute_mini_cloud_radius_getD x y r (some m) draws i hi]
    show (if m < (circleIdx x y r i).length then
        (draws i).map (fun t => (circleIdx x y r i).getD t 0)
      else circleIdx x y r i).length = m
    rw [if_pos hcap, List.length_map]
    exact hd i

/-- Witness for C8 (amended) at concrete inputs (cap 2, draw list
`[0, 1]` for every node). -/
theorem cloud_nodup_and_cap_witness :
    (∀ k, ((compute_mini_cloud 3 [(0, 1, 2)]).getD k []).Nodup) ∧
    (∀ i, ((compute_mini_cloud_radius [0, 1, 2] [0, 0, 0] 5 none
        (fun _ => [0, 1])).getD i []).Nodup) ∧
    (∀ i, i < ([0, 1, 2] : List ℚ).length →
      2 < (circleIdx [0, 1, 2] [0, 0, 0] 5 i).length →
      ((compute_mini_cloud_radius [0, 1, 2] [0, 0, 0] 5 (some 2)
        (fun _ => [0, 1])).getD i []).length = 2) :=
  cloud_nodup_and_cap 3 [(0, 1, 2)] [0, 1, 2] [0, 0, 0] 5 (fun _ => [0, 1]) 2
    (fun _ => rfl)

/-! ### Local planar fit and neighborhood medians (`boolean_creek.py`)

The detrend branch of `compute_boolean_creek` (lines 141-193).  The model
follows the 2-D field path (`z.ndim == 2`, `nt = z.shape[1]`), the only
path on which the function's shape arithmetic is consistent.
`scipy.linalg.lstsq(a, b, lapack_driver = 'gelsy')` on the 3-column
planar system is modelled as the exact solution of the normal equations
`AᵀA c = Aᵀb` by Cramer's rule: on a full-column-rank system this is the
unique least-squares minimizer that `lstsq` returns.  The zero fallback
for a singular normal matrix is never evaluated in this development. -/

def dotL (a b : List ℚ) : ℚ := (a.zipWith (· * ·) b).sum

def det3 (a b c d e f g h i : ℚ) : ℚ :=
  a * (e * i - f * h) - b * (d * i - f * g) + c * (d * h - e * g)

def lstsq3 (xs ys bs : List ℚ) : ℚ × ℚ × ℚ :=
  let sxx := dotL xs xs
  let sxy := dotL xs ys
  let sx := xs.sum
  let syy := dotL ys ys
  let sy := ys.sum
  let m : ℚ := xs.length
  let rx := dotL xs bs
  let ry := dotL ys bs
  let rb := bs.sum
  let d := det3 sxx sxy sx sxy syy sy sx sy m
  if d = 0 then (0, 0, 0)
  else (det3 rx sxy sx ry syy sy rb sy m / d,
        det3 sxx rx sx sxy ry sy sx rb m / d,
        det3 sxx sxy rx sxy syy ry sx sy rb / d)

/-- `np.median` of a 1-D array: middle element of the sorted data, or the
mean of the two middle elements for even length.  (Empty input, a NaN in
numpy, is never produced under non-empty neighborhoods.) -/
def npMedian (l : List ℚ) : ℚ :=
  let s := l.insertionSort (· ≤ ·)
  if l.length % 2 = 1 then s.getD (l.length / 2) 0
  else (s.getD (l.length / 2 - 1) 0 + s.getD (l.length / 2) 0) / 2

/-- `z[k, t]` with the out-of-range default 0 (never hit on consistent
shapes). -/
def fieldAt (z : List (List ℚ)) (k t : Nat) : ℚ := (z.getD k []).getD t 0

/-- `np.median(z[cloud[j]], axis = 0)` at time step `t`
(boolean_creek.py lines 126-128). -/
def medianAt (z : List (List ℚ)) (cloud : List (List Nat)) (j t : Nat) : ℚ :=
  npMedian ((cloud.getD j []).map (fun k => fieldAt z k t))

/-- The plain boolean creek `tmp_1 = (median - z > hc)`
(boolean_creek.py lines 125-134). -/
def tmp1Stage (x : List ℚ) (z : List (List ℚ)) (cloud : List (List Nat))
    (nt : Nat) (hc : ℚ) : List (List Bool) :=
  (List.range x.length).map (fun j => (List.range nt).map (fun t =>
    decide (hc < medianAt z cloud j t - fieldAt z j t)))

/-- The planar coefficients fitted over mini-cloud `c` at time step `t`
(boolean_creek.py lines 162-176). -/
def trendCoef (x y : List ℚ) (z : List (List ℚ)) (c : List Nat) (t : Nat) :
    ℚ × ℚ × ℚ :=
  lstsq3 (c.map (fun k => x.getD k 0)) (c.map (fun k => y.getD k 0))
    (c.map (fun k => fieldAt z k t))

/-- `coef[0] * xq + coef[1] * yq + coef[2]`. -/
def trendEval (coef : ℚ × ℚ × ℚ) (xq yq : ℚ) : ℚ :=
  coef.1 * xq + coef.2.1 * yq + coef.2.2

def zeroMatQ (n m : Nat) : List (List ℚ) :=
  List.replicate n (List.replicate m 0)

/-- The array `zl` as it stands AFTER the per-node loop of
boolean_creek.py lines 144-182.  The source re-executes
`zl = np.zeros(z.shape)` INSIDE the loop over `j`, so each iteration
discards all previously written rows; after the loop only the last node's
row `zl[nnode-1]` is non-zero, and it holds the planar trend of the last
node's mini-cloud evaluated at the last node's own coordinates. -/
def zlAfter (x y : List ℚ) (z : List (List ℚ)) (cloud : List (List Nat))
    (nt : Nat) : List (List ℚ) :=
  (List.range x.length).foldl
    (fun _zl j => (zeroMatQ z.length nt).set j
      ((List.range nt).map (fun t =>
        trendEval (trendCoef x y z (cloud.getD j []) t) (x.getD j 0) (y.getD j 0))))
    (zeroMatQ z.length nt)

/-- `np.median(z[cloud[j]] - zl[j], axis = 0)` at time step `t`
(boolean_creek.py lines 184-187): the detrend-mode neighborhood median
the code actually computes. -/
def detrendMedianAt (x y : List ℚ) (z : List (List ℚ))
    (cloud : List (List Nat)) (nt : Nat) (j t : Nat) : ℚ :=
  npMedian ((cloud.getD j []).map (fun k =>
    fieldAt z k t - ((zlAfter x y z cloud nt).getD j []).getD t 0))

/-- The detrended boolean creek `tmp_2 = (median - z > hc)`
(boolean_creek.py lines 189-193). -/
def tmp2Stage (x y : List ℚ) (z : List (List ℚ)) (cloud : List (List Nat))
    (nt : Nat) (hc : ℚ) : List (List Bool) :=
  (List.range x.length).map (fun j => (List.range nt).map (fun t =>
    decide (hc < detrendMedianAt x y z cloud nt j t - fieldAt z j t)))

/-- The detrend-mode median value the claim C4 (and spec §4.5 step 2)
describes: `median({f[k, t] − trend(k) : k ∈ N(j)})`, the planar trend of
node `j`'s neighborhood evaluated at each neighbor `k`'s OWN coordinates
and subtracted from that neighbor's field value before the median. -/
def specDetrendMedianAt (x y : List ℚ) (z : List (List ℚ))
    (cloud : List (List Nat)) (j t : Nat) : ℚ :=
  npMedian ((cloud.getD j []).map (fun k =>
    fieldAt z k t - trendEval (trendCoef x y z (cloud.getD j []) t)
      (x.getD k 0) (y.getD k 0)))

/-- C4 (code bug): on the 4-node input `x = [0, 1, 0, 2]`,
`y = [0, 0, 1, 1]`, field `z = x + 2·y + 3` (two equal time columns,
values `[3, 4, 5, 7]`), every neighborhood `[0, 1, 2]`, the planar fit
over the neighborhood is exactly `1·x + 2·y + 3`, so the claimed detrended
median `median({f[k] − trend(k)})` is `0` at every node.  But the code:
(a) re-creates `zl` inside the per-node loop, so node 0 (like every node
except the last) gets trend 0 subtracted and its "detrended" median is
the plain median 4; and (b) even for the last node 3 the trend is
evaluated only at the centre node's coordinates and subtracted as the
constant 7, giving median −3 instead of 0. -/
theorem detrend_zl_dead_store_divergence :
    detrendMedianAt [0, 1, 0, 2] [0, 0, 1, 1] [[3, 3], [4, 4], [5, 5], [7, 7]]
        [[0, 1, 2], [0, 1, 2], [0, 1, 2], [0, 1, 2]] 2 0 0 = 4 ∧
    specDetrendMedianAt [0, 1, 0, 2] [0, 0, 1, 1] [[3, 3], [4, 4], [5, 5], [7, 7]]
        [[0, 1, 2], [0, 1, 2], [0, 1, 2], [0, 1, 2]] 0 0 = 0 ∧
    detrendMedianAt [0, 1, 0, 2] [0, 0, 1, 1] [[3, 3], [4, 4], [5, 5], [7, 7]]
        [[0, 1, 2], [0, 1, 2], [0, 1, 2], [0, 1, 2]] 2 3 0 = -3 ∧
    specDetrendMedianAt [0, 1, 0, 2] [0, 0, 1, 1] [[3, 3], [4, 4], [5, 5], [7, 7]]
        [[0, 1, 2], [0, 1, 2], [0, 1, 2], [0, 1, 2]] 3 0 = 0 ∧
    medianAt [[3, 3], [4, 4], [5, 5], [7, 7]]
        [[0, 1, 2], [0, 1, 2], [0, 1, 2], [0, 1, 2]] 0 0 = 4 := by
  refine ⟨?_, ?_, ?_, ?_, ?_⟩ <;>
    norm_num [detrendMedianAt, specDetrendMedianAt, medianAt, zlAfter,
      zeroMatQ, trendCoef, trendEval, fieldAt, lstsq3, dotL, det3, npMedian,
      List.insertionSort, List.orderedInsert, List.range_succ]

/-! ### Combination of boolean creeks (`boolean_creek.py` lines 78-86 and
199-210)

`tmp_1 + tmp_2` on numpy bool arrays is elementwise OR; `creek += bool`
on the zero-initialised float accumulator adds 0/1, i.e. counts; with
time-combination `np.sum(tmp_1 + tmp_2, axis = 1)` is added instead. -/

def orMat (a b : List (List Bool)) : List (List Bool) :=
  a.zipWith (fun ra rb => ra.zipWith (· || ·) rb) b

def cellB (a : List (List Bool)) (i t : Nat) : Bool := (a.getD i []).getD t false

def cellN (a : List (List Nat)) (i t : Nat) : Nat := (a.getD i []).getD t 0

def zeroNatMat (n m : Nat) : List (List Nat) :=
  List.replicate n (List.replicate m 0)

def addBoolMat (acc : List (List Nat)) (b : List (List Bool)) : List (List Nat) :=
  acc.zipWith (fun ra rb => ra.zipWith (fun v c => v + c.toNat) rb) b

/-- `np.sum` of a boolean row (`axis = 1` slice). -/
def rowSum (row : List Bool) : Nat := (row.map Bool.toNat).sum

def addBoolRows (acc : List Nat) (b : List (List Bool)) : List Nat :=
  acc.zipWith (fun v row => v + rowSum row) b

/-- `creek += tmp_1 + tmp_2` accumulated over the radius loop
(combine_radius_logical, no time combination). -/
def combineRadiusCreek (nnode nt : Nat)
    (res : List (List (List Bool) × List (List Bool))) : List (List Nat) :=
  res.foldl (fun acc p => addBoolMat acc (orMat p.1 p.2)) (zeroNatMat nnode nt)

/-- `creek += np.sum(tmp_1 + tmp_2, axis = 1)` accumulated over the radius
loop (combine_radius_logical and combine_time_logical). -/
def combineTimeCreek (nnode : Nat)
    (res : List (List (List Bool) × List (List Bool))) : List Nat :=
  res.foldl (fun acc p => addBoolRows acc (orMat p.1 p.2))
    (List.replicate nnode 0)

/-- An `nnode × nt` boolean matrix. -/
def shaped (n m : Nat) (a : List (List Bool)) : Prop :=
  a.length = n ∧ ∀ row ∈ a, row.length = m

instance (n m : Nat) (a : List (List Bool)) : Decidable (shaped n m a) := by
  unfold shaped; infer_instance

/-- An `nnode × nt` natural-number matrix (the float accumulator of the
source only ever holds such integer counts). -/
def shapedN (n m : Nat) (a : List (List Nat)) : Prop :=
  a.length = n ∧ ∀ row ∈ a, row.length = m

theorem getD_eq_getElem_of_lt {α : Type} (l : List α) (i : Nat) (d : α)
    (h : i < l.length) : l.getD i d = l[i] := by
  rw [List.getD_eq_getElem?_getD, List.getElem?_eq_getElem h]
  rfl

theorem getD_zipWith_of_lt {α β γ : Type} (f : α → β → γ) :
    ∀ (a : List α) (b : List β) (i : Nat) (d : γ) (da : α) (db : β),
      i < a.length → i < b.length →
      (List.zipWith f a b).getD i d = f (a.getD i da) (b.getD i db)
  | _ :: _, _ :: _, 0, _, _, _, _, _ => rfl
  | x :: xs, y :: ys, i + 1, d, da, db, ha, hb => by
    simp only [List.zipWith_cons_cons, List.getD_cons_succ]
    exact getD_zipWith_of_lt f xs ys i d da db (by simpa using ha)
      (by simpa using hb)
  | [], _, i, _, _, _, ha, _ => absurd ha (by simp)
  | _ :: _, [], i, _, _, _, _, hb => absurd hb (by simp)

theorem getD_replicate {α : Type} (c d : α) (n i : Nat) (hi : i < n) :
    (List.replicate n c).getD i d = c := by
  have h : i < (List.replicate n c).length := by simpa using hi
  rw [getD_eq_getElem_of_lt _ _ _ h, List.getElem_replicate]

theorem getD_map_range {α : Type} (g : Nat → α) (n i : Nat) (d : α)
    (hi : i < n) : ((List.range n).map g).getD i d = g i := by
  have h : i < ((List.range n).map g).length := by simpa using hi
  rw [getD_eq_getElem_of_lt _ _ _ h, List.getElem_map, List.getElem_range]

theorem shaped_row_length (n m : Nat) (a : List (List Bool))
    (ha : shaped n m a) (i : Nat) (hi : i < n) : (a.getD i []).length = m := by
  obtain ⟨hal, har⟩ := ha
  have hia : i < a.length := by omega
  rw [getD_eq_getElem_of_lt _ _ _ hia]
  exact har _ (List.getElem_mem hia)

theorem shaped_orMat (n m : Nat) (a b : List (List Bool))
    (ha : shaped n m a) (hb : shaped n m b) : shaped n m (orMat a b) := by
  have hal := ha.1
  have hbl := hb.1
  constructor
  · unfold orMat
    rw [List.length_zipWith, hal, hbl, Nat.min_self]
  · intro row hrow
    unfold orMat at hrow
    obtain ⟨i, hi, hrow⟩ := List.mem_iff_getElem.mp hrow
    have hia : i < a.length := by
      rw [List.length_zipWith] at hi; omega
    have hib : i < b.length := by
      rw [List.length_zipWith] at hi; omega
    rw [← hrow, List.getElem_zipWith, List.length_zipWith]
    rw [ha.2 _ (List.getElem_mem hia), hb.2 _ (List.getElem_mem hib),
      Nat.min_self]

theorem cellB_orMat (n m : Nat) (a b : List (List Bool)) (i t : Nat)
    (ha : shaped n m a) (hb : shaped n m b) (hi : i < n) (ht : t < m) :
    cellB (orMat a b) i t = (cellB a i t || cellB b i t) := by
  have hia : i < a.length := by rw [ha.1]; omega
  have hib : i < b.length := by rw [hb.1]; omega
  unfold cellB orMat
  rw [getD_zipWith_of_lt _ a b i [] [] [] hia hib]
  exact getD_zipWith_of_lt _ _ _ t false false false
    (by rw [shaped_row_length n m a ha i hi]; omega)
    (by rw [shaped_row_length n m b hb i hi]; omega)

theorem shapedN_addBoolMat (n m : Nat) (acc : List (List Nat))
    (b : List (List Bool)) (hacc : shapedN n m acc) (hb : shaped n m b) :
    shapedN n m (addBoolMat acc b) := by
  constructor
  · unfold addBoolMat
    rw [List.length_zipWith, hacc.1, hb.1, Nat.min_self]
  · intro row hrow
    unfold addBoolMat at hrow
    obtain ⟨i, hi, hrow⟩ := List.mem_iff_getElem.mp hrow
    have hia : i < acc.length := by
      rw [List.length_zipWith] at hi; omega
    have hib : i < b.length := by
      rw [List.length_zipWith] at hi; omega
    rw [← hrow, List.getElem_zipWith, List.length_zipWith]
    rw [hacc.2 _ (List.getElem_mem hia), hb.2 _ (List.getElem_mem hib),
      Nat.min_self]

theorem cellN_addBoolMat (n m : Nat) (acc : List (List Nat))
    (b : List (List Bool)) (i t : Nat) (hacc : shapedN n m acc)
    (hb : shaped n m b) (hi : i < n) (ht : t < m) :
    cellN (addBoolMat acc b) i t = cellN acc i t + (cellB b i t).toNat := by
  have hia : i < acc.length := by rw [hacc.1]; omega
  have hib : i < b.length := by rw [hb.1]; omega
  unfold cellN addBoolMat cellB
  rw [getD_zipWith_of_lt _ acc b i [] [] [] hia hib]
  have hta : t < (acc.getD i []).length := by
    rw [getD_eq_getElem_of_lt _ _ _ hia, hacc.2 _ (List.getElem_mem hia)]
    omega
  exact getD_zipWith_of_lt _ _ _ t 0 0 false hta
    (by rw [shaped_row_length n m b hb i hi]; omega)

theorem cellN_zeroNatMat (n m i t : Nat) (hi : i < n) (ht : t < m) :
    cellN (zeroNatMat n m) i t = 0 := by
  unfold cellN zeroNatMat
  rw [getD_replicate _ _ _ _ hi, getD_replicate _ _ _ _ ht]

theorem shapedN_zeroNatMat (n m : Nat) : shapedN n m (zeroNatMat n m) := by
  constructor
  · simp [zeroNatMat]
  · intro row hrow
    rw [List.eq_of_mem_replicate hrow]
    simp

theorem cellN_combineRadius_aux (n m : Nat)
    (res : List (List (List Bool) × List (List Bool)))
    (acc : List (List Nat)) (i t : Nat) (hacc : shapedN n m acc)
    (hres : ∀ p ∈ res, shaped n m p.1 ∧ shaped n m p.2)
    (hi : i < n) (ht : t < m) :
    cellN (res.foldl (fun acc2 p => addBoolMat acc2 (orMat p.1 p.2)) acc) i t =
      cellN acc i t + res.countP (fun p => cellB (orMat p.1 p.2) i t) := by
  induction res generalizing acc with
  | nil => simp
  | cons p res ih =>
    obtain ⟨hp1, hp2⟩ := hres p (List.mem_cons_self _ _)
    have hor := shaped_orMat n m p.1 p.2 hp1 hp2
    rw [List.foldl_cons,
      ih (addBoolMat acc (orMat p.1 p.2))
        (shapedN_addBoolMat n m acc _ hacc hor)
        (fun q hq => hres q (List.mem_cons_of_mem _ hq)),
      cellN_addBoolMat n m acc _ i t hacc hor hi ht,
      List.countP_cons]
    rcases hcell : cellB (orMat p.1 p.2) i t
    · simp [hcell]
    · simp [hcell]
      omega

theorem getD_combineTime_aux (n m : Nat)
    (res : List (List (List Bool) × List (List Bool)))
    (acc : List Nat) (i : Nat) (hacc : acc.length = n)
    (hres : ∀ p ∈ res, shaped n m p.1 ∧ shaped n m p.2) (hi : i < n) :
    (res.foldl (fun acc2 p => addBoolRows acc2 (orMat p.1 p.2)) acc).getD i 0 =
      acc.getD i 0 +
        (res.map (fun p => rowSum ((orMat p.1 p.2).getD i []))).sum := by
  induction res generalizing acc with
  | nil => simp
  | cons p res ih =>
    obtain ⟨hp1, hp2⟩ := hres p (List.mem_cons_self _ _)
    have hor := shaped_orMat n m p.1 p.2 hp1 hp2
    have hlen : (addBoolRows acc (orMat p.1 p.2)).length = n := by
      unfold addBoolRows
      rw [List.length_zipWith, hacc, hor.1, Nat.min_self]
    rw [List.foldl_cons,
      ih (addBoolRows acc (orMat p.1 p.2)) hlen
        (fun q hq => hres q (List.mem_cons_of_mem _ hq))]
    unfold addBoolRows
    rw [getD_zipWith_of_lt _ acc _ i 0 0 [] (by omega) (by rw [hor.1]; omega)]
    simp only [List.map_cons, List.sum_cons]
    omega

theorem rowSum_le_length (row : List Bool) : rowSum row ≤ row.length := by
  unfold rowSum
  induction row with
  | nil => simp
  | cons b row ih =>
    simp only [List.map_cons, List.sum_cons, List.length_cons]
    rcases b <;> simp <;> omega

/-- C5: per-radius plain and detrend boolean matrices are combined cell by
cell with logical OR (`tmp_1 + tmp_2` on numpy bools); with radius
combination the OR'd booleans are SUMMED over the radii — each cell of the
accumulated creek counts the radii flagging it, an integer in
`[0, num_radii]`; with time combination additionally enabled the booleans
are also summed over the time axis, one integer per node in
`[0, num_radii * num_time_steps]`; and the two boolean arrays
`[1, 0, 1]` and `[0, 0, 1]` combine to `[1, 0, 2]`. -/
theorem creek_combination (nnode nt : Nat)
    (res : List (List (List Bool) × List (List Bool)))
    (hres : ∀ p ∈ res, shaped nnode nt p.1 ∧ shaped nnode nt p.2)
    (i t : Nat) (hi : i < nnode) (ht : t < nt) :
    (∀ p ∈ res, cellB (orMat p.1 p.2) i t = (cellB p.1 i t || cellB p.2 i t)) ∧
    cellN (combineRadiusCreek nnode nt res) i t =
      res.countP (fun p => cellB (orMat p.1 p.2) i t) ∧
    cellN (combineRadiusCreek nnode nt res) i t ≤ res.length ∧
    (combineTimeCreek nnode res).getD i 0 =
      (res.map (fun p => rowSum ((orMat p.1 p.2).getD i []))).sum ∧
    (combineTimeCreek nnode res).getD i 0 ≤ res.length * nt ∧
    combineRadiusCreek 3 1
      [([[true], [false], [true]], [[false], [false], [false]]),
       ([[false], [false], [true]], [[false], [false], [false]])] =
      [[1], [0], [2]] := by
  have hrad : cellN (combineRadiusCreek nnode nt res) i t =
      res.countP (fun p => cellB (orMat p.1 p.2) i t) := by
    unfold combineRadiusCreek
    rw [cellN_combineRadius_aux nnode nt res _ i t (shapedN_zeroNatMat nnode nt)
      hres hi ht, cellN_zeroNatMat nnode nt i t hi ht]
    omega
  have htime : (combineTimeCreek nnode res).getD i 0 =
      (res.map (fun p => rowSum ((orMat p.1 p.2).getD i []))).sum := by
    unfold combineTimeCreek
    rw [getD_combineTime_aux nnode nt res _ i (by simp) hres hi,
      getD_replicate _ _ _ _ hi]
    omega
  refine ⟨?_, hrad, ?_, htime, ?_, by decide⟩
  · intro p hp
    exact cellB_orMat nnode nt p.1 p.2 i t (hres p hp).1 (hres p hp).2 hi ht
  · rw [hrad]
    exact List.countP_le_length _
  · rw [htime]
    have hbound : ∀ p ∈ res, rowSum ((orMat p.1 p.2).getD i []) ≤ nt := by
      intro p hp
      have hor := shaped_orMat nnode nt p.1 p.2 (hres p hp).1 (hres p hp).2
      have := rowSum_le_length ((orMat p.1 p.2).getD i [])
      rw [shaped_row_length nnode nt _ hor i hi] at this
      exact this
    clear hrad htime hres
    induction res with
    | nil => simp
    | cons p res ih =>
      simp only [List.map_cons, List.sum_cons, List.length_cons]
      have h1 := hbound p (List.mem_cons_self _ _)
      have h2 := ih (fun q hq => hbound q (List.mem_cons_of_mem _ hq))
      calc rowSum ((orMat p.1 p.2).getD i []) +
            (res.map (fun q => rowSum ((orMat q.1 q.2).getD i []))).sum
          ≤ nt + res.length * nt := by omega
        _ = (res.length + 1) * nt := by ring

/-- Witness for C5 at a concrete configuration: 3 nodes, 1 time step, two
radii. -/
theorem creek_combination_witness :
    (∀ p ∈ [(([[true], [false], [true]] : List (List Bool)),
        ([[false], [false], [false]] : List (List Bool))),
       ([[false], [false], [true]], [[false], [false], [false]])],
      cellB (orMat p.1 p.2) 0 0 = (cellB p.1 0 0 || cellB p.2 0 0)) ∧
    cellN (combineRadiusCreek 3 1
      [([[true], [false], [true]], [[false], [false], [false]]),
       ([[false], [false], [true]], [[false], [false], [false]])]) 0 0 =
      List.countP (fun p => cellB (orMat p.1 p.2) 0 0)
        [(([[true], [false], [true]] : List (List Bool)),
          ([[false], [false], [false]] : List (List Bool))),
         ([[false], [false], [true]], [[false], [false], [false]])] ∧
    cellN (combineRadiusCreek 3 1
      [([[true], [false], [true]], [[false], [false], [false]]),
       ([[false], [false], [true]], [[false], [false], [false]])]) 0 0 ≤ 2 ∧
    (combineTimeCreek 3
      [([[true], [false], [true]], [[false], [false], [false]]),
       ([[false], [false], [true]], [[false], [false], [false]])]).getD 0 0 =
      (List.map (fun p => rowSum ((orMat p.1 p.2).getD 0 []))
        [(([[true], [false], [true]] : List (List Bool)),
          ([[false], [false], [false]] : List (List Bool))),
         ([[false], [false], [true]], [[false], [false], [false]])]).sum ∧
    (combineTimeCreek 3
      [([[true], [false], [true]], [[false], [false], [false]]),
       ([[false], [false], [true]], [[false], [false], [false]])]).getD 0 0 ≤
      2 * 1 ∧
    combineRadiusCreek 3 1
      [([[true], [false], [true]], [[false], [false], [false]]),
       ([[false], [false], [true]], [[false], [false], [false]])] =
      [[1], [0], [2]] :=
  creek_combination 3 1
    [([[true], [false], [true]], [[false], [false], [false]]),
     ([[false], [false], [true]], [[false], [false], [false]])]
    (by decide) 0 0 (by decide) (by decide)

/-! ### Quadratic local fit (`curvature.py`, `gaussian_curvature_p1`)

Per-node step of curvature.py lines 38-74.  The error type below exists to
STATE the spec's `InsufficientNeighborsError`; the body, translated from
the source, contains no neighborhood-size check and no raise of any kind,
so the model never returns `.error`.  `scipy.linalg.lstsq` is abstracted
as an explicit `solver` argument (its returned coefficient list), since
the absence of an error is independent of the numerical solution; `lstsq`
itself raises nothing on an underdetermined system (gelsy returns the
minimum-norm solution). -/

inductive FitError : Type
  | insufficientNeighbors : Nat → Nat → FitError
deriving DecidableEq

def gaussian_curvature_p1_at
    (solver : List (List ℚ) → List ℚ → List ℚ)
    (x y f : List ℚ) (cloud : List (List Nat)) (i : Nat) :
    Except FitError ℚ :=
  let c := cloud.getD i []
  let xc := c.map (fun k => x.getD k 0)
  let yc := c.map (fun k => y.getD k 0)
  let fc := c.map (fun k => f.getD k 0)
  let a := (xc.zip yc).map (fun p =>
    [p.1 * p.1, p.2 * p.2, p.1 * p.2, p.1, p.2, 1])
  let coef := solver a fc
  let c0 := coef.getD 0 0
  let c1 := coef.getD 1 0
  let c2 := coef.getD 2 0
  let c3 := coef.getD 3 0
  let c4 := coef.getD 4 0
  let fx := 2 * c0 * x.getD i 0 + c2 * y.getD i 0 + c3
  let fy := 2 * c1 * y.getD i 0 + c2 * x.getD i 0 + c4
  let fxx := 2 * c0
  let fyy := 2 * c1
  let fxy := c2
  Except.ok ((fxx * fyy - fxy * fxy) / ((1 + fx * fx + fy * fy) * (1 + fx * fx + fy * fy)))

/-- C6 counterexample: a neighborhood of size 2 given to the quadratic fit
does NOT raise `InsufficientNeighborsError` — no such error (or any check
of the neighborhood size against the 6 unknowns) exists in the code; the
underdetermined system is handed to the least-squares solver and a
curvature value is returned normally.  Instantiated at nodes (0,0), (1,0),
field values 0, 1, neighborhood `[0, 1]`, and the (explicit) zero
coefficient vector for the solver's result. -/
theorem quadratic_fit_size2_no_error :
    gaussian_curvature_p1_at (fun _ _ => [0, 0, 0, 0, 0, 0])
      [0, 1] [0, 0] [0, 1] [[0, 1]] 0 = Except.ok 0 := by
  norm_num [gaussian_curvature_p1_at]

/-- C6 (amended): neither fit performs a neighborhood-size check, and no
`InsufficientNeighborsError` exists anywhere in the code; for every solver
result and every input — in particular for a size-2 neighborhood fed to
the 6-unknown quadratic fit — `gaussian_curvature_p1`'s per-node step
completes normally with a curvature value (and the planar detrend fit of
`compute_boolean_creek`, modelled by total functions above, likewise
never signals an error). -/
theorem quadratic_fit_never_fails
    (solver : List (List ℚ) → List ℚ → List ℚ)
    (x y f : List ℚ) (cloud : List (List Nat)) (i : Nat) :
    ∃ v, gaussian_curvature_p1_at solver x y f cloud i = Except.ok v :=
  ⟨_, rfl⟩

/-! ### `compute_boolean_creek` control flow (boolean_creek.py lines 13-214)

The input-normalisation (scalar-to-list) is assumed done by the caller,
so `radius` and `cloudFn` are optional LISTS.  File names are abstract
ids (`Nat`); the file system is a function `fs` returning the imported
neighborhood index when the file exists (`os.path.isfile`) and `none`
when it does not.  The three `print ...; sys.exit()` guards are
`.error .sysExit`; the source's `len(radius) is not len(cloud_fn)` check
is modelled as inequality of the lengths (Python 2 caches small ints, on
which `is` agrees with `==`).  On every path that calls
`compute_mini_cloud_radius(x, y, r)` the name `r` is UNDEFINED in the
source (the loop variable is `i`, the list is `radius`), so those paths
raise `NameError`, modelled as `.error .nameError`; importing a
non-existent file raises IOError. -/

inductive CreekError : Type
  | sysExit : CreekError
  | nameError : CreekError
  | ioError : CreekError
deriving DecidableEq

inductive CreekOut : Type
  | perRadius : List (List (List Bool)) → CreekOut
  | byNodeTime : List (List Nat) → CreekOut
  | byNode : List Nat → CreekOut

def creekNr (radius : Option (List ℚ)) (cloudFn : Option (List Nat)) : Nat :=
  match radius, cloudFn with
  | some rs, _ => rs.length
  | none, some fns => fns.length
  | none, none => 0

def lenMismatch (radius : Option (List ℚ)) (cloudFn : Option (List Nat)) : Bool :=
  match radius, cloudFn with
  | some rs, some fns => rs.length != fns.length
  | _, _ => false

/-- Lines 96-118: per-radius acquisition of the neighborhood index. -/
def acquireCloud (fs : Nat → Option (List (List Nat)))
    (radius : Option (List ℚ)) (cloudFn : Option (List Nat)) (i : Nat) :
    Except CreekError (List (List Nat)) :=
  match radius, cloudFn with
  | some _, some fns =>
    match fs (fns.getD i 0) with
    | some c => Except.ok c
    | none => Except.error CreekError.nameError
  | some _, none => Except.error CreekError.nameError
  | none, some fns =>
    match fs (fns.getD i 0) with
    | some c => Except.ok c
    | none => Except.error CreekError.ioError
  | none, none => Except.error CreekError.sysExit

def falseMat (n m : Nat) : List (List Bool) :=
  List.replicate n (List.replicate m false)

/-- Lines 121-196: the per-radius boolean pair `(tmp_1, tmp_2)`. -/
def creekStage (x y : List ℚ) (z : List (List ℚ)) (hc : ℚ) (dt : Bool)
    (nt : Nat) (cloud : List (List Nat)) :
    List (List Bool) × List (List Bool) :=
  (tmp1Stage x z cloud nt hc,
    if dt then tmp2Stage x y z cloud nt hc else falseMat z.length nt)

/-- The radius loop, collecting the per-radius boolean pairs (any raised
error aborts the whole call). -/
def creekAcquire (fs : Nat → Option (List (List Nat)))
    (radius : Option (List ℚ)) (cloudFn : Option (List Nat))
    (x y : List ℚ) (z : List (List ℚ)) (hc : ℚ) (dt : Bool) (nt : Nat) :
    List Nat → Except CreekError (List (List (List Bool) × List (List Bool)))
  | [] => Except.ok []
  | i :: rest =>
    match acquireCloud fs radius cloudFn i with
    | Except.error e => Except.error e
    | Except.ok cloud =>
      match creekAcquire fs radius cloudFn x y z hc dt nt rest with
      | Except.error e => Except.error e
      | Except.ok tl => Except.ok (creekStage x y z hc dt nt cloud :: tl)

def computeBooleanCreek (fs : Nat → Option (List (List Nat)))
    (x y : List ℚ) (z : List (List ℚ)) (hc : ℚ)
    (radius : Option (List ℚ)) (cloudFn : Option (List Nat))
    (cR cT dt : Bool) : Except CreekError CreekOut :=
  if lenMismatch radius cloudFn then Except.error CreekError.sysExit
  else if radius = none ∧ cloudFn = none then Except.error CreekError.sysExit
  else if cT && !cR then Except.error CreekError.sysExit
  else
    match creekAcquire fs radius cloudFn x y z hc dt (z.headD []).length
        (List.range (creekNr radius cloudFn)) with
    | Except.error e => Except.error e
    | Except.ok res =>
      Except.ok (if cR then
          (if cT then CreekOut.byNode (combineTimeCreek x.length res)
           else CreekOut.byNodeTime
             (combineRadiusCreek z.length (z.headD []).length res))
        else CreekOut.perRadius (res.map (fun p => orMat p.1 p.2)))

theorem creekAcquire_error_of_missing (fs : Nat → Option (List (List Nat)))
    (radius : Option (List ℚ)) (cloudFn : Option (List Nat))
    (x y : List ℚ) (z : List (List ℚ)) (hc : ℚ) (dt : Bool) (nt : Nat)
    (l : List Nat) (e : CreekError)
    (hall : ∀ i ∈ l, acquireCloud fs radius cloudFn i = Except.error e ∨
      ∃ c, acquireCloud fs radius cloudFn i = Except.ok c)
    (hex : ∃ i ∈ l, acquireCloud fs radius cloudFn i = Except.error e) :
    creekAcquire fs radius cloudFn x y z hc dt nt l = Except.error e := by
  induction l with
  | nil => simp at hex
  | cons i l ih =>
    rcases hall i (List.mem_cons_self _ _) with hi | ⟨c, hi⟩
    · unfold creekAcquire
      rw [hi]
    · unfold creekAcquire
      rw [hi]
      have hex2 : ∃ j ∈ l, acquireCloud fs radius cloudFn j = Except.error e := by
        obtain ⟨j, hj, hje⟩ := hex
        rcases List.mem_cons.mp hj with rfl | hj2
        · rw [hi] at hje; exact absurd hje (by simp)
        · exact ⟨j, hj2, hje⟩
      rw [ih (fun j hj => hall j (List.mem_cons_of_mem _ hj)) hex2]

theorem creekAcquire_ok_all (fs : Nat → Option (List (List Nat)))
    (radius : Option (List ℚ)) (cloudFn : Option (List Nat))
    (x y : List ℚ) (z : List (List ℚ)) (hc : ℚ) (dt : Bool) (nt : Nat)
    (l : List Nat) (res : List (List (List Bool) × List (List Bool)))
    (h : creekAcquire fs radius cloudFn x y z hc dt nt l = Except.ok res) :
    ∀ i ∈ l, ∃ c, acquireCloud fs radius cloudFn i = Except.ok c := by
  induction l generalizing res with
  | nil => simp
  | cons i l ih =>
    unfold creekAcquire at h
    intro j hj
    rcases hacq : acquireCloud fs radius cloudFn i with e | c
    · rw [hacq] at h; exact absurd h (by simp)
    · rw [hacq] at h
      rcases htl : creekAcquire fs radius cloudFn x y z hc dt nt l with e | tl
      · rw [htl] at h; exact absurd h (by simp)
      · rcases List.mem_cons.mp hj with rfl | hj2
        · exact ⟨c, hacq⟩
        · exact ih tl htl j hj2

/-- C10: for every call of `compute_boolean_creek` that passes the
configuration guards and in which some neighborhood index must be
computed rather than imported from an existing file — `cloud_fn` is None,
or `radius` and `cloud_fn` are both given and some listed cloud file does
not exist — the function reaches `compute_mini_cloud_radius(x, y, r)`
where the name `r` is undefined and fails with a `NameError` before
producing any result; conversely, a call can only complete when
`cloud_fn` is given and every per-radius neighborhood index is imported
from an existing file. -/
theorem creek_requires_imported_clouds
    (fs : Nat → Option (List (List Nat)))
    (x y : List ℚ) (z : List (List ℚ)) (hc : ℚ)
    (radius : Option (List ℚ)) (cloudFn : Option (List Nat)) (cR cT dt : Bool)
    (hsome : ¬ (radius = none ∧ cloudFn = none))
    (hlen : lenMismatch radius cloudFn = false)
    (hct : cT = true → cR = true)
    (hnr : 0 < creekNr radius cloudFn) :
    ((cloudFn = none ∨
        (∃ fns, cloudFn = some fns ∧ radius ≠ none ∧
          ∃ i, i < creekNr radius cloudFn ∧ fs (fns.getD i 0) = none)) →
      computeBooleanCreek fs x y z hc radius cloudFn cR cT dt =
        Except.error CreekError.nameError) ∧
    (∀ out, computeBooleanCreek fs x y z hc radius cloudFn cR cT dt =
        Except.ok out →
      ∃ fns, cloudFn = some fns ∧
        ∀ i, i < creekNr radius cloudFn → (fs (fns.getD i 0)).isSome = true) := by
  have hcombine : (cT && !cR) = false := by
    cases cT <;> cases cR <;> simp_all
  have hguard : computeBooleanCreek fs x y z hc radius cloudFn cR cT dt =
      match creekAcquire fs radius cloudFn x y z hc dt (z.headD []).length
          (List.range (creekNr radius cloudFn)) with
      | Except.error e => Except.error e
      | Except.ok res =>
        Except.ok (if cR then
            (if cT then CreekOut.byNode (combineTimeCreek x.length res)
             else CreekOut.byNodeTime
               (combineRadiusCreek z.length (z.headD []).length res))
          else CreekOut.perRadius (res.map (fun p => orMat p.1 p.2))) := by
    unfold computeBooleanCreek
    rw [hlen, hcombine, if_neg (by simp), if_neg hsome, if_neg (by simp)]
  constructor
  · rintro (hnone | ⟨fns, hfns, hrad, i, hi, hmiss⟩)
    · subst hnone
      rcases radius with _ | rs
      · exact absurd ⟨rfl, rfl⟩ hsome
      · rw [hguard, creekAcquire_error_of_missing fs (some rs) none x y z hc dt
          _ _ CreekError.nameError
          (fun j _ => Or.inl rfl)
          ⟨0, List.mem_range.mpr hnr, rfl⟩]
    · subst hfns
      rcases radius with _ | rs
      · exact absurd rfl hrad
      · rw [hguard, creekAcquire_error_of_missing fs (some rs) (some fns) x y z
          hc dt _ _ CreekError.nameError
          (fun j _ => by
            simp only [acquireCloud]
            rcases hfs : fs (fns.getD j 0) with _ | c
            · exact Or.inl rfl
            · exact Or.inr ⟨c, rfl⟩)
          ⟨i, List.mem_range.mpr hi, by simp only [acquireCloud]; rw [hmiss]⟩]
  · intro out hout
    rw [hguard] at hout
    rcases hacq : creekAcquire fs radius cloudFn x y z hc dt
        (z.headD []).length (List.range (creekNr radius cloudFn)) with e | res
    · rw [hacq] at hout; exact absurd hout (by simp)
    · have hall := creekAcquire_ok_all fs radius cloudFn x y z hc dt
        (z.headD []).length _ res hacq
      rcases cloudFn with _ | fns
      · rcases radius with _ | rs
        · exact absurd ⟨rfl, rfl⟩ hsome
        · obtain ⟨c, hcq⟩ := hall 0 (List.mem_range.mpr hnr)
          exact absurd hcq (by simp only [acquireCloud]; simp)
      · refine ⟨fns, rfl, fun i hi => ?_⟩
        obtain ⟨c, hcq⟩ := hall i (List.mem_range.mpr hi)
        rcases radius with _ | rs <;>
          · simp only [acquireCloud] at hcq
            rcases hfs : fs (fns.getD i 0) with _ | c2
            · rw [hfs] at hcq; exact absurd hcq (by simp)
            · simp [hfs]

/-- Witness for C10: the concrete call with `radius = [1]`,
`cloud_fn = None` and an empty file system fails with `NameError`. -/
theorem creek_requires_imported_clouds_witness :
    computeBooleanCreek (fun _ => none) [0] [0] [[0]] 0 (some [1]) none
      false false false = Except.error CreekError.nameError :=
  (creek_requires_imported_clouds (fun _ => none) [0] [0] [[0]] 0 (some [1])
    none false false false (by simp) (by rfl) (by simp) (by norm_num [creekNr])).1
    (Or.inl rfl)
